import Mathlib

/-!
Verification of the algo-git instrumentation-and-trace pipeline.

The development shallowly embeds the parts of the repository that the
claims are about:

* `packages/instrumenter/src/index.ts` — the source-to-source transform
  (`CodeInstrumenter.instrument`, `transformSourceFile`,
  `collectArrayDeclarations`, `collectArraySwaps`, `collectArrayAssignments`);
* `packages/executor/dist/index.js` — the sandboxed runner
  (`CodeExecutor.execute`, `createSandbox`) and the `__trace` runtime object
  (`emit`, `declare`, `assign`, `arrayWrite`, `getTrace`);
* `packages/cli/dist/index.js` — the `file:changed` handler that composes
  the two stages.

Modelling conventions:

* Source text is represented by its parse tree.  The statement and
  expression grammar covers exactly the constructs the instrumenter
  inspects (variable declarations with initializers, expression
  statements, binary `=` assignments, element accesses, array literals,
  identifiers, numeric literals, `+`).  `ExprList` is a specialised list
  of expressions so that every function on the tree is structurally
  recursive.
* The third-party parser (`ts-morph` / the V8 parser inside `vm`) is not
  part of the repository; where a claim depends on it the parse step is a
  parameter of type `String → Except String _`, with a throwing parse
  modelled from the spec.
* Machine numbers are modelled as `Int` (the example programs stay far
  from any overflow or float behaviour).
* Wall-clock data (`timestamp`, `duration`, the vm timeout) is real time
  and is left out of the model; no claim below depends on it.
-/

mutual

/-- Expressions of the embedded source language (the shapes inspected by
`collectArraySwaps` / `collectArrayAssignments`: ts-morph
`BinaryExpression` with `EqualsToken` is `assign`, `ElementAccessExpression`
is `elemAccess`, `ArrayLiteralExpression` is `arrayLit`). -/
inductive Expr where
  | num (n : Int)
  | ident (name : String)
  | arrayLit (elems : ExprList)
  | elemAccess (obj : Expr) (idx : Expr)
  | add (a : Expr) (b : Expr)
  | assign (lhs : Expr) (rhs : Expr)

/-- Lists of expressions (array-literal elements), kept as a mutual
inductive so recursion over the tree is structural. -/
inductive ExprList where
  | nil
  | cons (e : Expr) (es : ExprList)

end

/-- Build an `ExprList` from a `List Expr`. -/
def ExprList.ofList : List Expr → ExprList
  | [] => .nil
  | e :: es => .cons e (ofList es)

/-- Array-literal expression from a plain list (notation helper). -/
def Expr.arr (es : List Expr) : Expr := .arrayLit (.ofList es)

/-- Element access `obj[idx]` (notation helper). -/
def Expr.ea (obj idx : Expr) : Expr := .elemAccess obj idx

/-- Top-level statements: `const name = init;` (a ts-morph
`VariableStatement` with a single declarator) and expression statements. -/
inductive Stmt where
  | varDecl (name : String) (init : Expr)
  | exprStmt (e : Expr)

mutual

/-- Canonical source text of an expression; models ts-morph `getText()`
(the instrumenter splices these texts into the inserted trace calls). -/
def renderE : Expr → String
  | .num n => toString n
  | .ident s => s
  | .arrayLit es => "[" ++ renderEL es ++ "]"
  | .elemAccess o i => renderE o ++ "[" ++ renderE i ++ "]"
  | .add a b => renderE a ++ " + " ++ renderE b
  | .assign l r => renderE l ++ " = " ++ renderE r

/-- Comma-separated texts of array-literal elements. -/
def renderEL : ExprList → String
  | .nil => ""
  | .cons e .nil => renderE e
  | .cons e es => renderE e ++ "," ++ renderEL es

end

/-- Canonical source text of a statement. -/
def renderS : Stmt → String
  | .varDecl n i => "const " ++ n ++ " = " ++ renderE i ++ ";"
  | .exprStmt e => renderE e ++ ";"

/-- One inserted `__trace.…` call, as produced by the instrumenter's
`newText` templates.  The `name` field is the spliced
`'${arrayName}'` / `'${name}'` string; the expression fields are the
re-parsed spliced texts (splicing `getText()` of a subtree and re-parsing
yields that same subtree). -/
inductive TCall where
  | declare (name : String) (arg : Expr)
  | assign (name : String) (arg : Expr)
  | arrayWrite (name : String) (idx : Expr) (value : Expr)

/-- A statement of the instrumented program: an original statement or an
inserted trace call. -/
inductive TStmt where
  | orig (s : Stmt)
  | call (c : TCall)

/-- Project original statements back out of an instrumented program. -/
def TStmt.origStmt : TStmt → Option Stmt
  | .orig s => some s
  | .call _ => none

/-- `collectArrayDeclarations`: a variable declaration whose initializer
is an array literal gets `__trace.declare('${name}', ${name});` appended
after the statement. -/
def declInstr : Stmt → Option (List TCall)
  | .varDecl name (.arrayLit _) => some [.declare name (.ident name)]
  | _ => none

/-- `collectArraySwaps`: a binary `=` whose two sides are both
array literals of exactly two elements, with both *left* elements
element accesses, gets three calls appended: two `array:write`s reading
the post-assignment values `${arrayName}[${index}]` and one
`variable:assign` of the whole collection.  `arrayName` is the text of the
*first* left element's object expression; the right-hand side elements are
never inspected beyond the two-element array-literal shape. -/
def swapInstr : Expr → Option (List TCall)
  | .assign (.arrayLit (.cons (.elemAccess o0 i0) (.cons (.elemAccess _o1 i1) .nil)))
            (.arrayLit (.cons _r0 (.cons _r1 .nil))) =>
      some [.arrayWrite (renderE o0) i0 (.elemAccess o0 i0),
            .arrayWrite (renderE o0) i1 (.elemAccess o0 i1),
            .assign (renderE o0) o0]
  | _ => none

/-- `collectArrayAssignments`: a binary `=` whose left side is an element
access gets `__trace.arrayWrite('${arrayName}', ${index}, ${value});`
appended, where `${value}` is the right-hand side's source text re-used
verbatim (hence re-evaluated when the inserted call runs). -/
def assignInstr : Expr → Option (List TCall)
  | .assign (.elemAccess obj idx) rhs => some [.arrayWrite (renderE obj) idx rhs]
  | _ => none

mutual

/-- All binary `=` expressions beneath (and including) an expression, in
document (pre-)order; models `getDescendantsOfKind(BinaryExpression)`
filtered by `EqualsToken`. -/
def assignDesc : Expr → List Expr
  | .num _ => []
  | .ident _ => []
  | .arrayLit es => assignDescL es
  | .elemAccess o i => assignDesc o ++ assignDesc i
  | .add a b => assignDesc a ++ assignDesc b
  | .assign l r => .assign l r :: (assignDesc l ++ assignDesc r)

/-- `assignDesc` over array-literal elements. -/
def assignDescL : ExprList → List Expr
  | .nil => []
  | .cons e es => assignDesc e ++ assignDescL es

end

/-- The one list of calls inserted after a statement.

`transformSourceFile` collects declaration, swap and assignment
transformations (in that push order), sorts them by anchor-statement
start *descending* and applies them with `replaceWithText`.  The sort is
stable, so for a single anchor statement the candidates keep the order
declarations, swaps (document order), assignments (document order); the
first `replaceWithText` forgets the statement node and the
`wasForgotten()` guard skips every later candidate for the same anchor.
Swap/assignment candidates exist only inside expression statements
(`getFirstAncestorByKind(ExpressionStatement)` is `undefined` for a
binary expression inside a variable statement). -/
def stmtInstr (s : Stmt) : List TCall :=
  let cands : List (List TCall) :=
    (match declInstr s with | some c => [c] | none => []) ++
    (match s with
     | .exprStmt e => (assignDesc e).filterMap swapInstr ++ (assignDesc e).filterMap assignInstr
     | _ => [])
  cands.head?.getD []

/-- The whole transform: each statement is left in place and its inserted
calls follow it (descending-order splicing makes the per-statement
replacements independent, and each replacement is the original statement
text followed by the inserted call lines). -/
def instrumentCore (p : List Stmt) : List TStmt :=
  p.flatMap fun s => .orig s :: (stmtInstr s).map .call

/-- Declaration-with-array-literal-initializer shape (the shape
`collectArrayDeclarations` recognizes). -/
def isArrayDeclShape : Stmt → Bool
  | .varDecl _ (.arrayLit _) => true
  | _ => false

/-- The swap shape `collectArraySwaps` recognizes: both sides two-element
array literals, both left elements element accesses. -/
def isSwapShape : Expr → Bool
  | .assign (.arrayLit (.cons (.elemAccess _ _) (.cons (.elemAccess _ _) .nil)))
            (.arrayLit (.cons _ (.cons _ .nil))) => true
  | _ => false

/-- The indexed-assignment shape `collectArrayAssignments` recognizes:
left side of `=` is an element access. -/
def isElemAssignShape : Expr → Bool
  | .assign (.elemAccess _ _) _ => true
  | _ => false

/-- A statement contains a construct recognized by one of the three
collectors. -/
def hasRecognizedConstruct : Stmt → Bool
  | .varDecl n i => isArrayDeclShape (.varDecl n i)
  | .exprStmt e => (assignDesc e).any fun a => isSwapShape a || isElemAssignShape a

example : renderE (Expr.ea (.ident "a") (.num 0)) = "a[0]" := rfl

example :
    stmtInstr (.exprStmt (.assign (.ea (.ident "a") (.num 1))
      (.add (.ea (.ident "a") (.num 1)) (.num 5))))
      = [.arrayWrite "a" (.num 1) (.add (.ea (.ident "a") (.num 1)) (.num 5))] := rfl

/-! ## Runtime values and the trace runtime (`packages/executor/dist/index.js`) -/

/-- Run-time values.  Arrays are heap objects, so a value holding an
array is a reference (`ref`) into the heap — this is what lets the model
distinguish storing a live reference from storing a structural clone. -/
inductive Value where
  | num (n : Int)
  | ref (addr : Nat)
  | undef
deriving DecidableEq

/-- The heap: address-indexed array objects. -/
abbrev Heap := List (List Value)

/-- A pure JSON tree, the result of `JSON.parse(JSON.stringify(v))`:
no references, later heap mutation cannot touch it. -/
inductive JValue where
  | num (n : Int)
  | arr (elems : List JValue)

/-- JSON serialization of a value, reading references through the heap.
`fuel` bounds the total expansion; `JSON.stringify` throws on cyclic
structures, which surfaces here as `none` (as does serializing
`undefined`, which `JSON.parse` then rejects). -/
def observeGo (h : Heap) : Nat → Sum Value (List Value) → Option (Sum JValue (List JValue))
  | 0, _ => none
  | _ + 1, .inl (.num n) => some (.inl (.num n))
  | _ + 1, .inl .undef => none
  | fuel + 1, .inl (.ref a) =>
      match h.get? a with
      | none => none
      | some cells =>
          match observeGo h fuel (.inr cells) with
          | some (.inr js) => some (.inl (.arr js))
          | _ => none
  | _ + 1, .inr [] => some (.inr [])
  | fuel + 1, .inr (v :: vs) =>
      match observeGo h fuel (.inl v), observeGo h fuel (.inr vs) with
      | some (.inl j), some (.inr js) => some (.inr (j :: js))
      | _, _ => none

/-- Fuel that exceeds the serialized size of any acyclic heap structure
(worst-case sharing expands to at most `2 ^ total-cell-count` nodes). -/
def cloneFuel (h : Heap) : Nat :=
  2 ^ (h.foldr (fun cells n => cells.length + 1 + n) 1)

/-- `JSON.parse(JSON.stringify(v))` — the structural-clone helper used by
`__trace.declare` and `__trace.assign`. -/
def cloneValue (h : Heap) (v : Value) : Option JValue :=
  match observeGo h (cloneFuel h) (.inl v) with
  | some (.inl j) => some j
  | _ => none

/-- What a trace event's `value` field holds: a pure snapshot (the result
of the clone) or the live value passed in (what `__trace.arrayWrite`
stores). -/
inductive TraceValue where
  | snap (j : JValue)
  | live (v : Value)

/-- Reading a recorded event's `value` at consumption time: a snapshot is
returned as-is; a live value is read through the current heap. -/
def readEvent (h : Heap) : TraceValue → Option JValue
  | .snap j => some j
  | .live v => cloneValue h v

/-- One trace event (`{id, type, data}`); `data` is flattened into the
`name`/`index`/`value` fields the three emitters produce.  The
`timestamp` field of the implementation is wall-clock time and is not
modelled. -/
structure TraceEvent where
  id : Nat
  type : String
  name : String
  index : Option Value
  value : TraceValue

/-- The `__trace` object's mutable state: `eventId` counter plus the
`events` list. -/
structure TraceState where
  eventId : Nat
  events : List TraceEvent

/-- `__trace.emit`: push `{id: this.eventId++, type, data}`. -/
def TraceState.emit (tr : TraceState) (ty name : String) (index : Option Value)
    (value : TraceValue) : TraceState :=
  { eventId := tr.eventId + 1,
    events := tr.events ++ [{ id := tr.eventId, type := ty, name := name,
                              index := index, value := value }] }

/-- Variable environment of the sandboxed run (declared bindings). -/
abbrev Env := List (String × Value)

/-- Identifier lookup; an unbound identifier read throws a
`ReferenceError` in the sandbox. -/
def lookupVar (env : Env) (n : String) : Option Value :=
  (env.find? fun p => p.1 == n).map (·.2)

/-- Read `obj[idx]` (property access): in-range element, `undefined` out
of range or on a number receiver; property access on `undefined` throws. -/
def readElem (h : Heap) (obj idx : Value) : Except String Value :=
  match obj with
  | .ref a =>
      match h.get? a with
      | some cells =>
          match idx with
          | .num n => if n < 0 then .ok .undef else .ok (cells.getD n.toNat .undef)
          | _ => .error "unsupported index"
      | none => .error "dangling reference"
  | .num _ => .ok .undef
  | .undef => .error "Cannot read properties of undefined"

/-- Write `obj[idx] = v`; a write past the end extends the array with
holes (`undefined`), as in the language being modelled. -/
def writeElem (h : Heap) (obj idx v : Value) : Except String Heap :=
  match obj with
  | .ref a =>
      match h.get? a with
      | some cells =>
          match idx with
          | .num n =>
              if n < 0 then .error "unsupported index" else
              let k := n.toNat
              let cells' := if k < cells.length then cells.set k v
                else cells ++ List.replicate (k - cells.length) Value.undef ++ [v]
              .ok (h.set a cells')
          | _ => .error "unsupported index"
      | none => .error "dangling reference"
  | _ => .error "Cannot set properties of a non-object"

mutual

/-- Expression evaluation in the sandbox: returns the value and the
(possibly extended or mutated) heap, or the thrown error's message. -/
def evalE (env : Env) (h : Heap) : Expr → Except String (Value × Heap)
  | .num n => .ok (.num n, h)
  | .ident s =>
      match lookupVar env s with
      | some v => .ok (v, h)
      | none => .error (s ++ " is not defined")
  | .arrayLit es => do
      let (vs, h1) ← evalL env h es
      .ok (.ref h1.length, h1 ++ [vs])
  | .elemAccess o i => do
      let (ov, h1) ← evalE env h o
      let (iv, h2) ← evalE env h1 i
      let v ← readElem h2 ov iv
      .ok (v, h2)
  | .add a b => do
      let (va, h1) ← evalE env h a
      let (vb, h2) ← evalE env h1 b
      match va, vb with
      | .num x, .num y => .ok (.num (x + y), h2)
      | _, _ => .error "unsupported addition"
  | .assign lhs rhs =>
      match lhs with
      | .elemAccess o i => do
          -- the member reference (object, then index) is evaluated
          -- before the right-hand side
          let (ov, h1) ← evalE env h o
          let (iv, h2) ← evalE env h1 i
          let (rv, h3) ← evalE env h2 rhs
          let h4 ← writeElem h3 ov iv rv
          .ok (rv, h4)
      | .arrayLit targets => do
          -- destructuring assignment: the right-hand side is evaluated
          -- first, then each target is assigned in order from the
          -- corresponding element of the result
          let (rv, h1) ← evalE env h rhs
          let h2 ← destrAssign env h1 rv 0 targets
          .ok (rv, h2)
      | .ident _ => .error "Assignment to constant variable."
      | _ => .error "Invalid left-hand side in assignment"

/-- Evaluate array-literal elements left to right. -/
def evalL (env : Env) (h : Heap) : ExprList → Except String (List Value × Heap)
  | .nil => .ok ([], h)
  | .cons e es => do
      let (v, h1) ← evalE env h e
      let (vs, h2) ← evalL env h1 es
      .ok (v :: vs, h2)

/-- Assign destructuring targets `t[k], t[k+1], …` from elements `k`,
`k+1`, … of the source array. -/
def destrAssign (env : Env) (h : Heap) (src : Value) (k : Nat) : ExprList → Except String Heap
  | .nil => .ok h
  | .cons t ts =>
      match t with
      | .elemAccess o i => do
          let (ov, h1) ← evalE env h o
          let (iv, h2) ← evalE env h1 i
          let v ← readElem h2 src (.num k)
          let h3 ← writeElem h2 ov iv v
          destrAssign env h3 src (k + 1) ts
      | _ => .error "unsupported destructuring target"

end

/-- State of one sandboxed run: bindings, heap, and the `__trace` object. -/
structure ExecState where
  env : Env
  heap : Heap
  tr : TraceState

/-- The fresh sandbox: empty bindings, empty heap, `__trace` with
`eventId = 0` and no events. -/
def initExecState : ExecState :=
  { env := [], heap := [], tr := { eventId := 0, events := [] } }

/-- Execute one original statement.  The trace state is untouched —
original statements never emit. -/
def execOrig (st : ExecState) : Stmt → Except String ExecState
  | .varDecl n init =>
      match evalE st.env st.heap init with
      | .error e => .error e
      | .ok (v, h) => .ok { st with env := (n, v) :: st.env, heap := h }
  | .exprStmt e =>
      match evalE st.env st.heap e with
      | .error e => .error e
      | .ok (_, h) => .ok { st with heap := h }

/-- Execute one inserted trace call: `__trace.declare` and
`__trace.assign` clone their value (`JSON.parse(JSON.stringify(value))`);
`__trace.arrayWrite` stores its `value` argument as passed. -/
def execCall (st : ExecState) : TCall → Except String ExecState
  | .declare n arg =>
      match evalE st.env st.heap arg with
      | .error e => .error e
      | .ok (v, h) =>
          match cloneValue h v with
          | none => .error "Converting circular structure to JSON"
          | some j =>
              .ok { st with
                      heap := h,
                      tr := st.tr.emit "variable:declare" n none (.snap j) }
  | .assign n arg =>
      match evalE st.env st.heap arg with
      | .error e => .error e
      | .ok (v, h) =>
          match cloneValue h v with
          | none => .error "Converting circular structure to JSON"
          | some j =>
              .ok { st with
                      heap := h,
                      tr := st.tr.emit "variable:assign" n none (.snap j) }
  | .arrayWrite n ie ve =>
      match evalE st.env st.heap ie with
      | .error e => .error e
      | .ok (iv, h1) =>
          match evalE st.env h1 ve with
          | .error e => .error e
          | .ok (vv, h2) =>
              .ok { st with
                      heap := h2,
                      tr := st.tr.emit "array:write" n (some iv) (.live vv) }

/-- Execute one statement of the instrumented program. -/
def execStmt (st : ExecState) : TStmt → Except String ExecState
  | .orig s => execOrig st s
  | .call c => execCall st c

/-- Run the instrumented program.  A fault carries the state the sandbox
had reached (in the implementation that state lives on inside the
discarded context; the model keeps it explicit so that "the events the
trace runtime had accumulated before the fault" is expressible). -/
def runAll (st : ExecState) : List TStmt → Except (String × ExecState) ExecState
  | [] => .ok st
  | t :: ts =>
      match execStmt st t with
      | .error e => .error (e, st)
      | .ok st' => runAll st' ts

/-- The state a run reached, whether or not it completed. -/
def reachedState : Except (String × ExecState) ExecState → ExecState
  | .ok st => st
  | .error (_, st) => st

/-- Error info of a failed execution (`{message, eventIndex}`; the
`stack` field is not modelled). -/
structure ExecErrorInfo where
  message : String
  eventIndex : Nat

/-- Result shape of `CodeExecutor.execute` (`{success, trace, error?}`;
`duration` is wall-clock time and is not modelled). -/
structure ExecResult where
  success : Bool
  trace : List TraceEvent
  errorInfo : Option ExecErrorInfo

/-- `CodeExecutor.execute` on a parsed program: on success, `trace` is
`sandbox.__trace.getTrace()`.  In the catch branch the implementation
sets `partialTrace = []` and `eventIndex = partialTrace.length` (the
`sandbox` variable is out of scope there), discarding whatever the trace
runtime had accumulated. -/
def executeCode (prog : List TStmt) : ExecResult :=
  match runAll initExecState prog with
  | .ok st => { success := true, trace := st.tr.events, errorInfo := none }
  | .error (msg, _) =>
      let pTrace : List TraceEvent := []
      { success := false, trace := pTrace,
        errorInfo := some { message := msg, eventIndex := pTrace.length } }

example :
    executeCode [.orig (.varDecl "a" (.arr [.num 1])), .call (.declare "a" (.ident "a"))]
      = { success := true,
          trace := [{ id := 0, type := "variable:declare", name := "a", index := none,
                      value := .snap (.arr [.num 1]) }],
          errorInfo := none } := rfl

/-! ## The `CodeInstrumenter` class and the CLI pipeline -/

/-- Rendered text of one inserted trace call (the `newText` templates of
the three collectors). -/
def renderCall : TCall → String
  | .declare n a => "__trace.declare(\x27" ++ n ++ "\x27, " ++ renderE a ++ ");"
  | .assign n a => "__trace.assign(\x27" ++ n ++ "\x27, " ++ renderE a ++ ");"
  | .arrayWrite n i v =>
      "__trace.arrayWrite(\x27" ++ n ++ "\x27, " ++ renderE i ++ ", " ++ renderE v ++ ");"

/-- Text of one instrumented-program statement. -/
def renderTStmt : TStmt → String
  | .orig s => renderS s
  | .call c => renderCall c

/-- `sourceFile.getFullText()` after the transform: the statements (and
inserted lines) in order. -/
def renderProgram (p : List TStmt) : String :=
  String.intercalate "\n" (p.map renderTStmt)

/-- The instrumenter's in-memory project (`new Project({useInMemoryFileSystem:
true, …})`): the files created so far, by path. -/
structure Project where
  files : List (String × List Stmt)

/-- A fresh project (the constructor's state). -/
def Project.empty : Project := { files := [] }

/-- `project.createSourceFile(path, text, {overwrite: true})`. -/
def Project.createSourceFile (p : Project) (path : String) (stmts : List Stmt) : Project :=
  { files := (path, stmts) :: p.files.filter fun q => q.1 != path }

/-- `InstrumentResult` (`{code, success, error?}`). -/
structure InstrumentResult where
  code : String
  success : Bool
  errorMsg : Option String
deriving DecidableEq

/-- `CodeInstrumenter.instrument(sourceCode, options)`.

The third-party parse step inside `createSourceFile` is the `parse`
parameter; a parse that throws is modelled from the spec ("any parse
failure of the input text yields `{error}`").  The `try`/`catch` of the
implementation returns `{code: sourceCode, success: false, error}` on any
throw, and otherwise stores the file in the project, transforms it, and
returns its full text. -/
def CodeInstrumenter.instrument (parse : String → Except String (List Stmt))
    (proj : Project) (sourceCode : String) (options : Option String) :
    InstrumentResult × Project :=
  match parse sourceCode with
  | .error e =>
      ({ code := sourceCode, success := false, errorMsg := some e }, proj)
  | .ok stmts =>
      ({ code := renderProgram (instrumentCore stmts), success := true, errorMsg := none },
       proj.createSourceFile (options.getD "temp.ts") stmts)

/-- The module-level `instrument` helper: a fresh `CodeInstrumenter` per
call. -/
def instrumentFn (parse : String → Except String (List Stmt))
    (sourceCode : String) (options : Option String) : InstrumentResult :=
  (CodeInstrumenter.instrument parse Project.empty sourceCode options).1

/-- `CodeExecutor.execute` on source text: the vm's own parse of the
instrumented text is the `vmParse` parameter; a vm-level syntax error
throws inside the same `try` and lands in the same catch branch (empty
trace, `eventIndex` 0). -/
def CodeExecutor.execute (vmParse : String → Except String (List TStmt))
    (code : String) : ExecResult :=
  match vmParse code with
  | .error e =>
      { success := false, trace := [],
        errorInfo := some { message := e, eventIndex := 0 } }
  | .ok prog => executeCode prog

/-- Outcome of one `file:changed` pipeline run, as the CLI handler
surfaces it (`broadcastError` after instrumentation failure,
`broadcastError` with the partial trace after execution failure,
`broadcastTrace` on success). -/
inductive PipelineOutcome where
  | transformFailed (error : String)
  | completed (trace : List TraceEvent)
  | faulted (message : String) (pTrace : List TraceEvent)

/-- The CLI `file:changed` handler: instrument, and only if
`instrumentResult.success` execute the instrumented code.  The second
component records whether the runner was invoked. -/
def process (parse : String → Except String (List Stmt))
    (vmParse : String → Except String (List TStmt)) (content : String) :
    PipelineOutcome × Bool :=
  let r := (CodeInstrumenter.instrument parse Project.empty content none).1
  if r.success then
    let er := CodeExecutor.execute vmParse r.code
    if er.success then (.completed er.trace, true)
    else (.faulted ((er.errorInfo.map (·.message)).getD "Execution failed") er.trace, true)
  else (.transformFailed (r.errorMsg.getD "Instrumentation failed"), false)

/-! ## The concrete programs of the claims -/

/-- Parse tree of `const a=[1,2,3]; a[1] = a[1] + 5;` (the input of the
indexed-write-fidelity property). -/
def c1ast : List Stmt :=
  [.varDecl "a" (.arr [.num 1, .num 2, .num 3]),
   .exprStmt (.assign (.ea (.ident "a") (.num 1))
     (.add (.ea (.ident "a") (.num 1)) (.num 5)))]

/-- Parse tree of `const a=[2,1]; [a[0],a[1]]=[a[1],a[0]];` (the input of
the swap-symmetry property). -/
def c5ast : List Stmt :=
  [.varDecl "a" (.arr [.num 2, .num 1]),
   .exprStmt (.assign
     (.arr [.ea (.ident "a") (.num 0), .ea (.ident "a") (.num 1)])
     (.arr [.ea (.ident "a") (.num 1), .ea (.ident "a") (.num 0)]))]

/-- Parse tree of `const a=[1]; zzz;` — one traced declaration followed by
a statement that throws a `ReferenceError`. -/
def c2ast : List Stmt :=
  [.varDecl "a" (.arr [.num 1]), .exprStmt (.ident "zzz")]

/-- Parse tree of `const a=[[1]]; a[0] = a[0]; a[0][0] = 2;` — the traced
indexed write stores a live reference to the inner array, which the last
statement then mutates. -/
def c3ast : List Stmt :=
  [.varDecl "a" (.arr [.arr [.num 1]]),
   .exprStmt (.assign (.ea (.ident "a") (.num 0)) (.ea (.ident "a") (.num 0))),
   .exprStmt (.assign (.ea (.ea (.ident "a") (.num 0)) (.num 0)) (.num 2))]

/-- Parse tree of `[a[0],a[1]] = [b[1],b[0]];` — a two-element
destructuring assignment whose right-hand side names a *different*
collection. -/
def c4bad : Stmt :=
  .exprStmt (.assign
    (.arr [.ea (.ident "a") (.num 0), .ea (.ident "a") (.num 1)])
    (.arr [.ea (.ident "b") (.num 1), .ea (.ident "b") (.num 0)]))

example :
    instrumentCore c1ast =
      [.orig (.varDecl "a" (.arr [.num 1, .num 2, .num 3])),
       .call (.declare "a" (.ident "a")),
       .orig (.exprStmt (.assign (.ea (.ident "a") (.num 1))
         (.add (.ea (.ident "a") (.num 1)) (.num 5)))),
       .call (.arrayWrite "a" (.num 1) (.add (.ea (.ident "a") (.num 1)) (.num 5)))] := rfl

example :
    (executeCode (instrumentCore c1ast)).trace.map (fun e => e.type) =
      ["variable:declare", "array:write"] := rfl

/-! ## Trace-runtime invariants -/

/-- Invariant maintained by the `__trace` object: the `eventId` counter
equals the number of recorded events, event ids are positional, and every
event that is not an `array:write` stores a cloned snapshot. -/
def traceOk (tr : TraceState) : Prop :=
  tr.eventId = tr.events.length
  ∧ (∀ i : Nat, ∀ hi : i < tr.events.length, (tr.events.get ⟨i, hi⟩).id = i)
  ∧ (∀ e ∈ tr.events, e.type = "array:write" ∨ ∃ j, e.value = TraceValue.snap j)

theorem traceOk_init : traceOk initExecState.tr := by
  refine ⟨rfl, ?_, ?_⟩
  · intro i hi
    exact absurd hi (by simp [initExecState])
  · intro e he
    exact absurd he (by simp [initExecState])

theorem traceOk_emit {tr : TraceState} (ty nm : String) (ix : Option Value) (v : TraceValue)
    (hv : ty = "array:write" ∨ ∃ j, v = TraceValue.snap j) (h : traceOk tr) :
    traceOk (tr.emit ty nm ix v) := by
  obtain ⟨hid, hpos, hsnap⟩ := h
  refine ⟨?_, ?_, ?_⟩
  · simp [TraceState.emit, hid]
  · intro i hi
    simp only [TraceState.emit, List.length_append, List.length_cons, List.length_nil] at hi
    simp only [TraceState.emit, List.get_eq_getElem]
    by_cases hlt : i < tr.events.length
    · rw [List.getElem_append_left hlt]
      have := hpos i hlt
      simpa [List.get_eq_getElem] using this
    · have hieq : i = tr.events.length := by omega
      rw [List.getElem_concat_length _ _ _ hieq]
      simp [hieq, hid]
  · intro e he
    simp only [TraceState.emit, List.mem_append, List.mem_singleton] at he
    rcases he with he | he
    · exact hsnap e he
    · subst he
      simpa using hv

theorem execOrig_tr {st st' : ExecState} {s : Stmt} (h : execOrig st s = .ok st') :
    st'.tr = st.tr := by
  cases s with
  | varDecl n init =>
      simp only [execOrig] at h
      split at h
      · cases h
      · cases h; rfl
  | exprStmt e =>
      simp only [execOrig] at h
      split at h
      · cases h
      · cases h; rfl

theorem traceOk_execCall {st st' : ExecState} {c : TCall} (hok : traceOk st.tr)
    (h : execCall st c = .ok st') : traceOk st'.tr := by
  cases c with
  | declare n arg =>
      simp only [execCall] at h
      split at h
      · cases h
      · split at h
        · cases h
        · cases h
          exact traceOk_emit _ _ _ _ (Or.inr ⟨_, rfl⟩) hok
  | assign n arg =>
      simp only [execCall] at h
      split at h
      · cases h
      · split at h
        · cases h
        · cases h
          exact traceOk_emit _ _ _ _ (Or.inr ⟨_, rfl⟩) hok
  | arrayWrite n ie ve =>
      simp only [execCall] at h
      split at h
      · cases h
      · split at h
        · cases h
        · cases h
          exact traceOk_emit _ _ _ _ (Or.inl rfl) hok

theorem traceOk_execStmt {st st' : ExecState} {t : TStmt} (hok : traceOk st.tr)
    (h : execStmt st t = .ok st') : traceOk st'.tr := by
  cases t with
  | orig s => rw [execStmt] at h; rw [execOrig_tr h]; exact hok
  | call c => exact traceOk_execCall hok h

theorem traceOk_runAll (ts : List TStmt) (st : ExecState) (hok : traceOk st.tr) :
    traceOk (reachedState (runAll st ts)).tr := by
  induction ts generalizing st with
  | nil => exact hok
  | cons t ts ih =>
      rw [runAll]
      cases hex : execStmt st t with
      | error e => exact hok
      | ok st' => exact ih st' (traceOk_execStmt hok hex)

/-! ## Recognition lemmas for the transform -/

theorem swapInstr_eq_none {e : Expr} (h : isSwapShape e = false) : swapInstr e = none := by
  unfold swapInstr
  split
  · rename_i o0 i0 o1 i1 r0 r1
    rw [isSwapShape] at h
    cases h
  · rfl

theorem assignInstr_eq_none {e : Expr} (h : isElemAssignShape e = false) : assignInstr e = none := by
  unfold assignInstr
  split
  · rename_i obj idx rhs
    rw [isElemAssignShape] at h
    cases h
  · rfl

theorem stmtInstr_eq_nil {s : Stmt} (h : hasRecognizedConstruct s = false) : stmtInstr s = [] := by
  cases s with
  | varDecl n init =>
      cases init <;>
        simp_all [hasRecognizedConstruct, isArrayDeclShape, stmtInstr, declInstr]
  | exprStmt e =>
      have hall : ∀ a ∈ assignDesc e, isSwapShape a = false ∧ isElemAssignShape a = false := by
        intro a ha
        have hor : (isSwapShape a || isElemAssignShape a) = false := by
          cases hb : (isSwapShape a || isElemAssignShape a) with
          | false => rfl
          | true =>
              have : (assignDesc e).any (fun a => isSwapShape a || isElemAssignShape a) = true :=
                List.any_eq_true.mpr ⟨a, ha, hb⟩
              rw [hasRecognizedConstruct] at h
              rw [this] at h
              cases h
        simpa using hor
      rw [stmtInstr]
      have h1 : (assignDesc e).filterMap swapInstr = [] :=
        List.filterMap_eq_nil_iff.mpr fun a ha => swapInstr_eq_none (hall a ha).1
      have h2 : (assignDesc e).filterMap assignInstr = [] :=
        List.filterMap_eq_nil_iff.mpr fun a ha => assignInstr_eq_none (hall a ha).2
      simp [declInstr, h1, h2]

/-! ## Claims -/

/-- Claim C1.  The claim states that for `const a=[1,2,3]; a[1] = a[1] + 5;`
the trace contains exactly one `array:write` event with index 1 and value 7
(the value actually stored).  Evaluating the instrumented program shows the
implementation emits value **12**: the inserted call re-evaluates the
source text `a[1] + 5` *after* the assignment has already stored 7 at
index 1.  The final heap (second conjunct) confirms the stored value is 7,
so the emitted value does not match what was stored. -/
theorem c1_indexed_write_eval :
    executeCode (instrumentCore c1ast) =
      { success := true,
        trace := [{ id := 0, type := "variable:declare", name := "a", index := none,
                    value := .snap (.arr [.num 1, .num 2, .num 3]) },
                  { id := 1, type := "array:write", name := "a", index := some (.num 1),
                    value := .live (.num 12) }],
        errorInfo := none }
    ∧ (reachedState (runAll initExecState (instrumentCore c1ast))).heap
        = [[.num 1, .num 7, .num 3]] :=
  ⟨rfl, rfl⟩

/-- Claim C2.  The claim states that on a runtime fault the executor
returns the events the trace runtime had accumulated before the fault,
with `eventIndex` equal to their number.  For `const a=[1]; zzz;` the
runtime accumulates one `variable:declare` event before the
`ReferenceError`, but `CodeExecutor.execute`'s catch branch returns
`trace = []` and `eventIndex = 0` (its partial-trace recovery is stubbed
out to the empty list). -/
theorem c2_fault_trace_eval :
    (reachedState (runAll initExecState (instrumentCore c2ast))).tr.events
      = [{ id := 0, type := "variable:declare", name := "a", index := none,
           value := .snap (.arr [.num 1]) }]
    ∧ executeCode (instrumentCore c2ast)
      = { success := false, trace := [],
          errorInfo := some { message := "zzz is not defined", eventIndex := 0 } } :=
  ⟨rfl, rfl⟩

/-- Claim C3, counterexample.  For `const a=[[1]]; a[0] = a[0];
a[0][0] = 2;` the instrumented run records an `array:write` event whose
`value` is the live inner-array reference (`__trace.arrayWrite` does not
clone).  After four instrumented statements the recorded event (index 1 in
the trace) reads back as `[1]`; the remaining original statement mutates
the inner array in place, after which the *same, unchanged* recorded event
reads back as `[2]` — a later in-place mutation changed the value of an
already-recorded event. -/
theorem c3_clone_counterexample :
    ((reachedState (runAll initExecState ((instrumentCore c3ast).take 4))).tr.events.get? 1)
      = ((reachedState (runAll initExecState (instrumentCore c3ast))).tr.events.get? 1)
    ∧ (((reachedState (runAll initExecState ((instrumentCore c3ast).take 4))).tr.events.get? 1).map
        fun e => e.type) = some "array:write"
    ∧ (((reachedState (runAll initExecState ((instrumentCore c3ast).take 4))).tr.events.get? 1).map
        fun e => readEvent (reachedState (runAll initExecState ((instrumentCore c3ast).take 4))).heap e.value)
      = some (some (.arr [.num 1]))
    ∧ (((reachedState (runAll initExecState (instrumentCore c3ast))).tr.events.get? 1).map
        fun e => readEvent (reachedState (runAll initExecState (instrumentCore c3ast))).heap e.value)
      = some (some (.arr [.num 2])) :=
  ⟨rfl, rfl, rfl, rfl⟩

/-- Claim C3, amended: values recorded by `__trace.declare` and
`__trace.assign` *are* structural clones taken at emission — every
non-`array:write` event stores a pure snapshot, so reading its value is
independent of any later heap state.  (`__trace.arrayWrite` stores the
live value, see the counterexample.) -/
theorem c3_clone_amended (prog : List TStmt) (e : TraceEvent)
    (he : e ∈ (reachedState (runAll initExecState prog)).tr.events)
    (hty : e.type = "variable:declare" ∨ e.type = "variable:assign") :
    (∃ j, e.value = TraceValue.snap j)
    ∧ ∀ h1 h2 : Heap, readEvent h1 e.value = readEvent h2 e.value := by
  have hinv := traceOk_runAll prog initExecState traceOk_init
  rcases hinv.2.2 e he with haw | ⟨j, hj⟩
  · rcases hty with hty | hty <;> rw [hty] at haw <;> exact absurd haw (by decide)
  · exact ⟨⟨j, hj⟩, fun h1 h2 => by rw [hj]; rfl⟩

/-- Program used to instantiate `c3_clone_amended`. -/
def c3wprog : List TStmt := [.call (.declare "b" (.num 5))]

/-- Claim C3, witness: the declare event recorded by `c3wprog` stores the
snapshot `5`, read back identically under two different heaps. -/
theorem c3_clone_amended_witness :
    readEvent ([] : Heap) (TraceValue.snap (JValue.num 5))
      = readEvent [[Value.num 9]] (TraceValue.snap (JValue.num 5)) :=
  (c3_clone_amended c3wprog
    { id := 0, type := "variable:declare", name := "b", index := none,
      value := TraceValue.snap (JValue.num 5) }
    (List.Mem.head _) (Or.inl rfl)).2 [] [[Value.num 9]]

/-- Claim C4, counterexample.  `[a[0],a[1]] = [b[1],b[0]];` has mismatched
collection names, which the claim says is left uninstrumented; the
transformer nevertheless emits full swap instrumentation (built from the
left-hand side's name `a` and indices only). -/
theorem c4_swap_counterexample :
    instrumentCore [c4bad] =
      [.orig c4bad,
       .call (.arrayWrite "a" (.num 0) (.ea (.ident "a") (.num 0))),
       .call (.arrayWrite "a" (.num 1) (.ea (.ident "a") (.num 1))),
       .call (.assign "a" (.ident "a"))]
    ∧ instrumentCore [c4bad] ≠ [.orig c4bad] :=
  ⟨rfl, fun h => absurd (congrArg List.length h) (by decide)⟩

/-- Claim C4, amended: swap instrumentation is emitted exactly when an
assignment's two sides are both two-element array literals and both
*left* elements are indexed accesses; the emitted calls use the first
left element's collection text and the two left indices, while the
right-hand side's contents — including its collection names — are never
checked.  Shapes outside this (in particular larger tuples) are left
uninstrumented. -/
theorem c4_swap_amended :
    (∀ o0 i0 o1 i1 r0 r1 : Expr,
       swapInstr (.assign (.arr [.ea o0 i0, .ea o1 i1]) (.arr [r0, r1]))
         = some [.arrayWrite (renderE o0) i0 (.ea o0 i0),
                 .arrayWrite (renderE o0) i1 (.ea o0 i1),
                 .assign (renderE o0) o0])
    ∧ (∀ e : Expr, isSwapShape e = false → swapInstr e = none) :=
  ⟨fun _ _ _ _ _ _ => rfl, fun _ h => swapInstr_eq_none h⟩

/-- Claim C4, witness: the positive shape at a concrete mismatched-name
instance, and a non-matching shape yielding no instrumentation. -/
theorem c4_swap_amended_witness :
    swapInstr (.assign (.arr [.ea (.ident "a") (.num 0), .ea (.ident "a") (.num 1)])
                       (.arr [.num 9, .num 8]))
      = some [.arrayWrite "a" (.num 0) (.ea (.ident "a") (.num 0)),
              .arrayWrite "a" (.num 1) (.ea (.ident "a") (.num 1)),
              .assign "a" (.ident "a")]
    ∧ swapInstr (.num 3) = none :=
  ⟨c4_swap_amended.1 (.ident "a") (.num 0) (.ident "a") (.num 1) (.num 9) (.num 8),
   c4_swap_amended.2 (.num 3) rfl⟩

/-- Claim C5.  For `const a=[2,1]; [a[0],a[1]]=[a[1],a[0]];` the
instrumented run produces, in order: `variable:declare` of `a` with value
`[2,1]`, `array:write` index 0 value 1, `array:write` index 1 value 2,
and `variable:assign` of `a` with value `[1,2]` — exactly as the claim
states. -/
theorem c5_swap_symmetry :
    executeCode (instrumentCore c5ast) =
      { success := true,
        trace := [{ id := 0, type := "variable:declare", name := "a", index := none,
                    value := .snap (.arr [.num 2, .num 1]) },
                  { id := 1, type := "array:write", name := "a", index := some (.num 0),
                    value := .live (.num 1) },
                  { id := 2, type := "array:write", name := "a", index := some (.num 1),
                    value := .live (.num 2) },
                  { id := 3, type := "variable:assign", name := "a", index := none,
                    value := .snap (.arr [.num 1, .num 2]) }],
        errorInfo := none } := rfl

/-- Claim C6.  In every trace returned by the executor, `events[i].id = i`
for every valid index: ids are assigned by the trace runtime at emission,
start at 0 and increase by one per event. -/
theorem c6_monotonic_ids (prog : List TStmt) (i : Nat)
    (hi : i < (executeCode prog).trace.length) :
    ((executeCode prog).trace.get ⟨i, hi⟩).id = i := by
  have hinv := traceOk_runAll prog initExecState traceOk_init
  revert hi
  unfold executeCode
  cases hrun : runAll initExecState prog with
  | ok st =>
      rw [hrun] at hinv
      intro hi
      exact hinv.2.1 i hi
  | error p =>
      intro hi
      exact absurd hi (by simp)

/-- Claim C6, witness: the first event of the swap-symmetry trace has
id 0. -/
theorem c6_monotonic_ids_witness :
    ((executeCode (instrumentCore c5ast)).trace.get ⟨0, by decide⟩).id = 0 :=
  c6_monotonic_ids (instrumentCore c5ast) 0 (by decide)

/-- Claim C7.  Transforming a program in which no statement contains a
recognized construct (array-literal declaration, two-element
destructuring-swap shape, indexed element assignment) returns the
program unchanged; and in general the transform is additive — erasing
the inserted trace calls from any transform output recovers the original
statements, in order. -/
theorem c7_additive :
    (∀ p : List Stmt, (∀ s ∈ p, hasRecognizedConstruct s = false) →
       instrumentCore p = p.map TStmt.orig)
    ∧ (∀ p : List Stmt, (instrumentCore p).filterMap TStmt.origStmt = p) := by
  constructor
  · intro p hp
    induction p with
    | nil => rfl
    | cons s p ih =>
        have hs : stmtInstr s = [] := stmtInstr_eq_nil (hp s (List.mem_cons_self s p))
        have hrest := ih fun t ht => hp t (List.mem_cons_of_mem s ht)
        simp only [instrumentCore, List.flatMap_cons, hs, List.map_nil, List.map_cons] at hrest ⊢
        simp [hrest]
  · intro p
    induction p with
    | nil => rfl
    | cons s p ih =>
        have hcalls : ∀ L : List TCall,
            List.filterMap TStmt.origStmt (L.map TStmt.call) = [] := by
          intro L
          rw [List.filterMap_map]
          exact List.filterMap_eq_nil_iff.mpr fun a _ => rfl
        simp only [instrumentCore, List.flatMap_cons, List.filterMap_append,
          List.filterMap_cons, TStmt.origStmt, hcalls] at ih ⊢
        simp [ih]

/-- Claim C7, witness: a program with no recognized construct is returned
unchanged. -/
theorem c7_additive_witness :
    instrumentCore [Stmt.exprStmt (.add (.num 1) (.num 2))]
      = [TStmt.orig (Stmt.exprStmt (.add (.num 1) (.num 2)))] :=
  c7_additive.1 [Stmt.exprStmt (.add (.num 1) (.num 2))] (by
    intro s hs
    rw [List.mem_singleton] at hs
    subst hs
    rfl)

/-- Claim C8.  When the parse step fails, `CodeInstrumenter.instrument`
returns `success: false` with the error, and the CLI `file:changed`
handler returns after broadcasting the transform failure — the runner is
never invoked (second component `false`) and no trace of any kind is
produced for the input. -/
theorem c8_transform_isolation
    (parse : String → Except String (List Stmt))
    (vmParse : String → Except String (List TStmt))
    (content e : String) (hp : parse content = .error e) :
    (CodeInstrumenter.instrument parse Project.empty content none).1.success = false
    ∧ process parse vmParse content = (.transformFailed e, false) := by
  constructor
  · unfold CodeInstrumenter.instrument
    rw [hp]
  · unfold process CodeInstrumenter.instrument
    rw [hp]
    rfl

/-- Parse that always throws (models the parser rejecting invalid
syntax, as the spec's transform-failure taxonomy describes). -/
def failingParse : String → Except String (List Stmt) :=
  fun _ => .error "Unexpected token"

/-- A vm parse stub for instantiating pipeline theorems. -/
def vmParseStub : String → Except String (List TStmt) :=
  fun _ => .error "not reached"

/-- Claim C8, witness: a concrete failing input never reaches the
runner. -/
theorem c8_transform_isolation_witness :
    (CodeInstrumenter.instrument failingParse Project.empty "const const" none).1.success = false
    ∧ process failingParse vmParseStub "const const"
        = (.transformFailed "Unexpected token", false) :=
  c8_transform_isolation failingParse vmParseStub "const const" "Unexpected token" rfl

/-- Claim C9.  The transformer's result is a pure function of the source
text and options: it does not depend on the project state the
`CodeInstrumenter` instance has accumulated (first conjunct, any two
instance states give identical results), and a call on a used instance
equals a call through the module-level `instrument` helper, which builds
a fresh instance (second conjunct).  Determinism of repeated calls is
inherent: the embedding is a function. -/
theorem c9_transform_pure :
    (∀ (parse : String → Except String (List Stmt)) (p1 p2 : Project)
       (src : String) (opt : Option String),
       (CodeInstrumenter.instrument parse p1 src opt).1
         = (CodeInstrumenter.instrument parse p2 src opt).1)
    ∧ (∀ (parse : String → Except String (List Stmt)) (p : Project)
       (src : String) (opt : Option String),
       (CodeInstrumenter.instrument parse p src opt).1 = instrumentFn parse src opt) := by
  constructor
  · intro parse p1 p2 src opt
    unfold CodeInstrumenter.instrument
    cases parse src <;> rfl
  · intro parse p src opt
    unfold instrumentFn CodeInstrumenter.instrument
    cases parse src <;> rfl

/-- Claim C10.  Whenever instrumentation fails, the returned result's
`code` field is the original source text, unchanged. -/
theorem c10_fallback_code
    (parse : String → Except String (List Stmt)) (proj : Project)
    (src : String) (opt : Option String)
    (h : (CodeInstrumenter.instrument parse proj src opt).1.success = false) :
    (CodeInstrumenter.instrument parse proj src opt).1.code = src := by
  revert h
  unfold CodeInstrumenter.instrument
  cases parse src with
  | error e => intro h; rfl
  | ok stmts => intro h; exact Bool.noConfusion h

/-- Claim C10, witness: a concrete failing call returns the original
source as its `code`. -/
theorem c10_fallback_code_witness :
    (CodeInstrumenter.instrument failingParse Project.empty "const x = 1;" none).1.code
      = "const x = 1;" :=
  c10_fallback_code failingParse Project.empty "const x = 1;" none rfl
